import Mathlib

/-!
# Verification of the sandman GPU session orchestrator

A shallow embedding, in Lean 4, of the session lifecycle engine of the
`leekib/sandman` repository: the SQLite session store
(`internal/store`), the GPU/MIG pool (`internal/gpu`), the Docker client
with its host-port pool (`internal/docker`), the session service
(`internal/session/service.go`), the HTTP handlers (`internal/api`) and
the boot sequence (`cmd/orchestrator/main.go`).

Modelling conventions:
* Go `int` values are modelled as `Int`; time instants are modelled as
  `Int` minutes (`time.Duration(ttl) * time.Minute` becomes `+ ttl`).
* External effects (the Docker engine, the SQLite file) are explicit
  state: the Docker engine is a list of containers, the store a list of
  rows.  Infrastructure failures of the effectful calls (image build,
  container create/start/stop/remove, inspect, SQL writes and scans)
  are decided by an explicit `Oracle`; read queries against the local
  SQLite file are modelled as reliable.
* Nondeterministic inputs (generated UUIDs, key material, passwords,
  wall-clock time) are drawn from the same `Oracle`.
-/

namespace Sandman

/-- MIG profile descriptor (`gpu.MIGProfile`, part_010). -/
structure MIGProfile where
  name : String
  memory : String
  gpuSlice : Int
  memSlice : Int
deriving DecidableEq, Repr

/-- MIG instance state (`gpu.MIGInstance`, part_010): discovered once at
startup, then flipped between free and held. -/
structure MIGInstance where
  uuid : String
  profile : MIGProfile
  gpuIndex : Int
  inUse : Bool
  createdBy : String
deriving DecidableEq, Repr

/-- Durable session row (`store.Session`, part_008).  `createdAt` and
`expiresAt` are instants in minutes. -/
structure Session where
  id : String
  userId : String
  containerId : String
  containerIp : String
  sshPort : Int
  gpuUuid : String
  migProfile : String
  ttlMinutes : Int
  createdAt : Int
  expiresAt : Int
  metadata : List (String × String)
deriving DecidableEq, Repr

/-- Host-port pool (`docker.PortManager`, part_006).  `usedPorts` models
the `map[int]bool` of held ports as the list of keys mapped to `true`. -/
structure PortManager where
  startPort : Int
  endPort : Int
  usedPorts : List Int
deriving DecidableEq, Repr

/-- The scan loop of `PortManager.AllocatePort` (part_006 lines 97-108):
`for port := pm.startPort; port <= pm.endPort; port++`, returning the
first port not marked used.  `fuel` is the number of loop iterations
left, `cur` the current loop variable. -/
def scanPorts (used : List Int) (cur : Int) : Nat → Option Int
  | 0 => none
  | fuel + 1 => if cur ∈ used then scanPorts used (cur + 1) fuel else some cur

/-- `PortManager.AllocatePort` (part_006): returns the first free port in
`[startPort, endPort]` and marks it used, or fails when the scan finds
none ("사용 가능한 포트가 없습니다"). -/
def PortManager.allocatePort (pm : PortManager) : Option (Int × PortManager) :=
  match scanPorts pm.usedPorts pm.startPort (pm.endPort + 1 - pm.startPort).toNat with
  | some p => some (p, { pm with usedPorts := p :: pm.usedPorts })
  | none => none

/-- `PortManager.ReleasePort` (part_006): `delete(pm.usedPorts, port)`. -/
def PortManager.releasePort (pm : PortManager) (p : Int) : PortManager :=
  { pm with usedPorts := pm.usedPorts.filter (fun q => q != p) }

/-! ## Decimal printing and parsing

`fmt.Sprintf("%d", n)` and `strconv.Atoi` are modelled on `List Char`. -/

/-- The ASCII digit for `d < 10`. -/
def digitChar (d : Nat) : Char := Char.ofNat (48 + d)

/-- Decimal digits of a natural number, most significant first
(the output of `fmt.Sprintf("%d", n)` for `n ≥ 0`). -/
def natToChars (n : Nat) : List Char :=
  if h : n < 10 then [digitChar n]
  else natToChars (n / 10) ++ [digitChar (n % 10)]
termination_by n
decreasing_by exact Nat.div_lt_self (by omega) (by omega)

/-- `fmt.Sprintf("%d", i)` for a Go `int`. -/
def intToChars (i : Int) : List Char :=
  if i < 0 then '-' :: natToChars (-i).toNat else natToChars i.toNat

def intToStr (i : Int) : String := ⟨intToChars i⟩

/-- Value of an ASCII decimal digit, if `c` is one. -/
def charDigit (c : Char) : Option Nat :=
  if 48 ≤ c.toNat ∧ c.toNat ≤ 57 then some (c.toNat - 48) else none

/-- Accumulating decimal parse; fails at the first non-digit. -/
def parseDigits (acc : Nat) : List Char → Option Nat
  | [] => some acc
  | c :: cs =>
    match charDigit c with
    | some d => parseDigits (10 * acc + d) cs
    | none => none

/-- `strconv.Atoi`: optional sign, then a non-empty run of digits. -/
def atoi (s : List Char) : Option Int :=
  match s with
  | [] => none
  | c :: cs =>
    if c = '-' then
      if cs = [] then none else (parseDigits 0 cs).map (fun n => -(n : Int))
    else if c = '+' then
      if cs = [] then none else (parseDigits 0 cs).map (fun n => (n : Int))
    else (parseDigits 0 (c :: cs)).map (fun n => (n : Int))

/-- `parsePort` (part_006 lines 338-343): `strconv.Atoi`, `0` on error. -/
def parsePort (s : String) : Int :=
  match atoi s.data with
  | some n => n
  | none => 0

/-! ## Session store (`store.SQLiteStore`, part_008)

The SQLite file is a list of rows.  Read queries are modelled as
reliable; write statements can fail through the `Oracle` at the
call sites in the service. -/

abbrev StoreDB := List Session

/-- `GetSession` (part_008 92-112): `WHERE id = ?`; `none` models
`sql.ErrNoRows`. -/
def getSessionRow (db : StoreDB) (id : String) : Option Session :=
  db.find? (fun r => r.id == id)

/-- `GetSessionByUserID` (part_008 114-134): `WHERE user_id = ?`. -/
def getSessionByUserRow (db : StoreDB) (uid : String) : Option Session :=
  db.find? (fun r => r.userId == uid)

/-- `CreateSession` (part_008 77-90): `INSERT`; fails on the PRIMARY KEY
(`id`) or UNIQUE (`user_id`) constraint. -/
def storeCreate (db : StoreDB) (s : Session) : Option StoreDB :=
  if db.any (fun r => r.id == s.id || r.userId == s.userId) then none
  else some (db ++ [s])

/-- `DeleteSession` (part_008 152-156): `DELETE WHERE id = ?`; deleting
zero rows is not an error. -/
def storeDelete (db : StoreDB) (id : String) : StoreDB :=
  db.filter (fun r => r.id != id)

/-- The `ORDER BY created_at DESC` order of `ListAllSessions`. -/
def newestFirst (a b : Session) : Prop := b.createdAt ≤ a.createdAt

instance : DecidableRel newestFirst := fun a b => Int.decLe b.createdAt a.createdAt

instance : IsTotal Session newestFirst :=
  ⟨fun a b => (le_total b.createdAt a.createdAt).elim Or.inl Or.inr⟩

instance : IsTrans Session newestFirst :=
  ⟨fun _ _ _ h1 h2 => le_trans h2 h1⟩

/-- `ListAllSessions` (part_008 191-222): all rows, newest first. -/
def listAllRows (db : StoreDB) : List Session :=
  List.insertionSort newestFirst db

/-- `ListExpiredSessions` (part_008 158-189): `WHERE expires_at < now`. -/
def listExpiredRows (db : StoreDB) (now : Int) : List Session :=
  db.filter (fun r => r.expiresAt < now)

/-! ## GPU pool (`gpu.Manager`, part_010)

The `map[string]*MIGInstance` is modelled as a list of instances; the
list order stands for one iteration order of the Go map. -/

abbrev GpuPool := List MIGInstance

/-- The in-place mutation `instance.InUse = true; instance.CreatedBy =
userID` through the `map[string]*MIGInstance` pointer, applied to the
entry with the given uuid. -/
def markInstance (u userID : String) (i : MIGInstance) : MIGInstance :=
  if i.uuid == u then { i with inUse := true, createdBy := userID } else i

/-- The in-place mutation `instance.InUse = false; instance.CreatedBy =
""` applied to the entry with the given uuid. -/
def freeInstance (u : String) (i : MIGInstance) : MIGInstance :=
  if i.uuid == u then { i with inUse := false, createdBy := "" } else i

/-- `Manager.AllocateMIG` (part_010 182-209): first free instance whose
profile name matches; marks it in use by `userID`. -/
def allocateMIG (g : GpuPool) (profileName userID : String) :
    Option (MIGInstance × GpuPool) :=
  match g.find? (fun i => !i.inUse && i.profile.name == profileName) with
  | none => none
  | some inst =>
    some ({ inst with inUse := true, createdBy := userID },
      g.map (markInstance inst.uuid userID))

/-- `Manager.AllocateMIGByUUID` (part_010 303-326): allocate one specific
instance; fails if unknown or already in use. -/
def allocateMIGByUUID (g : GpuPool) (instanceUUID userID : String) :
    Option (MIGInstance × GpuPool) :=
  match g.find? (fun i => i.uuid == instanceUUID) with
  | none => none
  | some inst =>
    if inst.inUse then none
    else
      some ({ inst with inUse := true, createdBy := userID },
        g.map (markInstance instanceUUID userID))

/-- `Manager.ReleaseMIG` (part_010 211-237): `none` is the
instance-not-found error; releasing an already-free instance is a logged
no-op returning `nil`; a mismatched holder is logged but released. -/
def releaseMIG (g : GpuPool) (instanceUUID _userID : String) : Option GpuPool :=
  match g.find? (fun i => i.uuid == instanceUUID) with
  | none => none
  | some inst =>
    if !inst.inUse then some g
    else some (g.map (freeInstance instanceUUID))

/-! ## SSH identity minter (`Client.generateSSHKeyPair`, part_006 458-483)

`rsa.GenerateKey` is abstracted as a generator function from the key
size in bits (the model of `crypto/rand`); PEM encoding and
`ssh.MarshalAuthorizedKey` are modelled by their output shapes. -/

/-- Abstract RSA key material: the private key DER bytes and the public
key base64, both already in their textual serialized form. -/
structure RSAKeyMaterial where
  privDER : String
  pubB64 : String
deriving DecidableEq, Repr

/-- `pem.EncodeToMemory` of a single block. -/
def pemEncode (blockType body : String) : String :=
  "-----BEGIN " ++ blockType ++ "-----\n" ++ body ++ "\n-----END " ++ blockType ++ "-----\n"

/-- `ssh.MarshalAuthorizedKey`: the serialized key in authorized-keys
format, `"<key-type> <base64>\n"` — it writes no comment field. -/
def marshalAuthorizedKey (keyType b64 : String) : String :=
  keyType ++ " " ++ b64 ++ "\n"

/-- `Client.generateSSHKeyPair(userID)` (part_006 458-483): RSA-2048,
private half as a `RSA PRIVATE KEY` PEM block, public half via
`ssh.MarshalAuthorizedKey`.  Returns `(publicKey, privateKeyPEM)`.
`userID` is only logged. -/
def generateSSHKeyPair (rsaGen : Nat → RSAKeyMaterial) (_userID : String) :
    String × String :=
  let bits := 2048
  let key := rsaGen bits
  let privateKeyPEM := pemEncode "RSA PRIVATE KEY" key.privDER
  let publicKey := marshalAuthorizedKey "ssh-rsa" key.pubB64
  (publicKey, privateKeyPEM)

/-- Whitespace, for splitting an authorized-keys line into fields. -/
def isSpaceChar (c : Char) : Bool := c == ' ' || c == '\n' || c == '\t' || c == '\r'

/-- Split into maximal runs of non-whitespace characters. -/
def fieldsAux (cur : List Char) : List Char → List (List Char)
  | [] => if cur.isEmpty then [] else [cur.reverse]
  | c :: rest =>
    if isSpaceChar c then
      if cur.isEmpty then fieldsAux [] rest
      else cur.reverse :: fieldsAux [] rest
    else fieldsAux (c :: cur) rest

/-- The whitespace-separated fields of an OpenSSH authorized-keys line. -/
def authorizedKeyFields (line : String) : List String :=
  (fieldsAux [] line.data).map (fun w => String.mk w)

/-- The comment of an OpenSSH authorized-keys line `"type base64 comment"`:
its third whitespace-separated field, when present. -/
def authorizedKeyComment (line : String) : Option String :=
  ((authorizedKeyFields line).drop 2).head?

/-! ## Docker engine and client (`docker.Client`, part_006)

The engine state is the list of containers attached to the
`sandman_worknet` bridge.  `ports22` models
`HostConfig.PortBindings["22/tcp"]` as the list of bound host-port
strings. -/

structure Container where
  id : String
  name : String
  ip : String
  running : Bool
  ports22 : List String
deriving DecidableEq, Repr

abbrev Engine := List Container

/-- Environment of one service call: wall clock, generated identifiers
and key material, and which effectful calls fail. -/
structure Oracle where
  now : Int
  sessionId : String
  newContainerId : String
  rsaGen : Nat → RSAKeyMaterial
  buildFault : Bool
  createFault : Bool
  startFault : Bool
  inspectFault : String → Bool
  stopFault : String → Bool
  removeFault : String → Bool
  storeCreateFault : Bool
  storeDeleteFault : String → Bool
  storeListFault : Bool

/-- The scan loop of `findAvailableIP` (part_006 416-446):
`for i := IPRangeStart; i <= IPRangeEnd; i++` over `10.100.0.<i>`. -/
def scanIPs (used : List String) (cur : Int) : Nat → Option String
  | 0 => none
  | fuel + 1 =>
    let ip := "10.100.0." ++ intToStr cur
    if ip ∈ used then scanIPs used (cur + 1) fuel else some ip

/-- `findAvailableIP` (part_006): collect the IPs of the listed
containers, return the lowest unused address in `.100`-`.254`. -/
def findAvailableIP (eng : Engine) : Option String :=
  scanIPs (eng.map (fun c => c.ip)) 100 155

/-- `docker.ContainerConfig` (part_006 42-51), restricted to the fields
the service populates plus the password the client fills in on its own
copy. -/
structure ContainerConfig where
  userID : String
  gpuUUID : String
  workspaceDir : String
  sshPassword : String
  image : String
deriving DecidableEq, Repr

/-- `docker.ContainerInfo` (part_006 53-61), without the `Created`
timestamp string. -/
structure ContainerInfo where
  id : String
  ip : String
  image : String
  status : String
  sshPrivateKey : String
  sshPort : Int
deriving DecidableEq, Repr

/-- `Client.CreateContainer` (part_006 159-289): generate the SSH key
pair, build the per-user image, ensure the workspace directory, pick the
lowest free bridge IP, allocate a host port, create and start the
container.  On a create failure the port is released; on a start failure
the port is released and the created container force-removed (that
remove call's error is not checked).  Key generation and the workspace
directory are modelled reliable.  Returns the Go result together with
the port pool and engine after the call. -/
def createContainer (o : Oracle) (pm : PortManager) (eng : Engine) (cfg : ContainerConfig) :
    Option ContainerInfo × PortManager × Engine :=
  let keyPair := generateSSHKeyPair o.rsaGen cfg.userID
  if o.buildFault then (none, pm, eng) else
  let imageName := "gpu-workspace-" ++ cfg.userID
  match findAvailableIP eng with
  | none => (none, pm, eng)
  | some ip =>
    match pm.allocatePort with
    | none => (none, pm, eng)
    | some (sshPort, pm1) =>
      if o.createFault then (none, pm1.releasePort sshPort, eng)
      else
        let cont : Container :=
          { id := o.newContainerId, name := cfg.userID ++ "-container", ip := ip,
            running := false, ports22 := [intToStr sshPort] }
        if o.startFault then
          (none, pm1.releasePort sshPort,
            (eng ++ [cont]).filter (fun c => c.id != o.newContainerId))
        else
          (some { id := o.newContainerId, ip := ip, image := imageName,
                  status := "running", sshPrivateKey := keyPair.2, sshPort := sshPort },
            pm1, eng ++ [{ cont with running := true }])

/-- `Client.StopContainer` (part_006 291-304): graceful stop with a 10
second timeout escalating to SIGKILL; the stop-then-kill pair is
collapsed into one faultable call that marks the container stopped. -/
def stopContainer (o : Oracle) (eng : Engine) (cid : String) : Bool × Engine :=
  if o.stopFault cid then (false, eng)
  else (true, eng.map (fun c => if c.id == cid then { c with running := false } else c))

/-- `Client.RemoveContainer` (part_006 306-336): inspect the container
first and, when the inspection succeeds and the first `22/tcp` binding
is a non-empty string parsing to a positive number, release that host
port; then force-remove the container. -/
def removeContainer (o : Oracle) (pm : PortManager) (eng : Engine) (cid : String) :
    Bool × PortManager × Engine :=
  let inspected : Option Container :=
    if o.inspectFault cid then none else eng.find? (fun c => c.id == cid)
  let pm1 :=
    match inspected with
    | some c =>
      match c.ports22.head? with
      | some hostPort =>
        if hostPort != "" && 0 < parsePort hostPort then pm.releasePort (parsePort hostPort)
        else pm
      | none => pm
    | none => pm
  if o.removeFault cid then (false, pm1, eng)
  else (true, pm1, eng.filter (fun c => c.id != cid))

/-! ## Session service (`session.Service`, service.go 337-517: the
variant that binds a host port directly and reports `localhost`) -/

inductive SvcErr
  | duplicateUser
  | gpuAllocFailed
  | containerCreateFailed
  | persistFailed
  | notFound
  | storeDeleteFailed
  | listFailed
deriving DecidableEq, Repr

/-- `session.CreateRequest` (service.go 296-302). -/
structure CreateRequest where
  userId : String
  ttlMinutes : Int
  migProfile : String
  migInstanceUUID : String
  image : String
deriving DecidableEq, Repr

/-- `session.CreateResponse` (service.go 304-314). -/
structure CreateResponse where
  sessionId : String
  containerId : String
  sshUser : String
  sshHost : String
  sshPort : Int
  sshPrivateKey : String
  gpuUuid : String
  createdAt : Int
  expiresAt : Int
deriving DecidableEq, Repr

/-- The whole orchestrator state the service acts on. -/
structure SvcState where
  db : StoreDB
  gpus : GpuPool
  pm : PortManager
  eng : Engine
deriving DecidableEq, Repr

/-- `Service.CreateSession` (service.go 337-429): uniqueness check,
defaulting, GPU allocation, container creation, persist; the rollback on
a persist failure removes the container (releasing its port through the
inspection) and releases the GPU, ignoring those calls' errors.  The
password stored in the metadata is the service's own
`containerConfig.SSHPassword`, which stays empty because Go passes the
struct to `CreateContainer` by value. -/
def createSessionSvc (o : Oracle) (workspaceRoot : String) (st : SvcState)
    (req : CreateRequest) : Except SvcErr CreateResponse × SvcState :=
  match getSessionByUserRow st.db req.userId with
  | some _ => (Except.error SvcErr.duplicateUser, st)
  | none =>
    let ttl := if req.ttlMinutes ≤ 0 then 60 else req.ttlMinutes
    let profileName :=
      if req.migProfile == "" && req.migInstanceUUID == "" then "3g.20gb" else req.migProfile
    let allocated :=
      if req.migInstanceUUID != "" then allocateMIGByUUID st.gpus req.migInstanceUUID req.userId
      else allocateMIG st.gpus profileName req.userId
    match allocated with
    | none => (Except.error SvcErr.gpuAllocFailed, st)
    | some (mig, gpus1) =>
      let workspaceDir := workspaceRoot ++ "/" ++ req.userId
      let cfg : ContainerConfig :=
        { userID := req.userId, gpuUUID := mig.uuid, workspaceDir := workspaceDir,
          sshPassword := "", image := req.image }
      match createContainer o st.pm st.eng cfg with
      | (none, pm1, eng1) =>
        let gpus2 := (releaseMIG gpus1 mig.uuid req.userId).getD gpus1
        (Except.error SvcErr.containerCreateFailed,
          { db := st.db, gpus := gpus2, pm := pm1, eng := eng1 })
      | (some info, pm1, eng1) =>
        let now := o.now
        let expiresAt := now + ttl
        let sess : Session :=
          { id := o.sessionId, userId := req.userId, containerId := info.id,
            containerIp := info.ip, sshPort := info.sshPort, gpuUuid := mig.uuid,
            migProfile := mig.profile.name, ttlMinutes := ttl, createdAt := now,
            expiresAt := expiresAt,
            metadata := [("image", info.image), ("workspace", workspaceDir),
              ("ssh_password", cfg.sshPassword), ("ssh_port", intToStr info.sshPort)] }
        let inserted := if o.storeCreateFault then none else storeCreate st.db sess
        match inserted with
        | none =>
          let r := removeContainer o pm1 eng1 info.id
          let gpus2 := (releaseMIG gpus1 mig.uuid req.userId).getD gpus1
          (Except.error SvcErr.persistFailed,
            { db := st.db, gpus := gpus2, pm := r.2.1, eng := r.2.2 })
        | some db1 =>
          (Except.ok
            { sessionId := sess.id, containerId := info.id, sshUser := req.userId,
              sshHost := "localhost", sshPort := info.sshPort,
              sshPrivateKey := info.sshPrivateKey, gpuUuid := mig.uuid,
              createdAt := now, expiresAt := expiresAt },
            { db := db1, gpus := gpus1, pm := pm1, eng := eng1 })

/-- `Service.cleanupSession` (service.go 457-482): best-effort stop,
remove and GPU release (errors only logged), then the store delete,
whose error alone fails the call. -/
def cleanupSession (o : Oracle) (st : SvcState) (sess : Session) :
    Option SvcErr × SvcState :=
  let eng1 := (stopContainer o st.eng sess.containerId).2
  let r := removeContainer o st.pm eng1 sess.containerId
  let gpus1 := (releaseMIG st.gpus sess.gpuUuid sess.userId).getD st.gpus
  if o.storeDeleteFault sess.id then
    (some SvcErr.storeDeleteFailed, { db := st.db, gpus := gpus1, pm := r.2.1, eng := r.2.2 })
  else
    (none, { db := storeDelete st.db sess.id, gpus := gpus1, pm := r.2.1, eng := r.2.2 })

/-- `Service.DeleteSession` (service.go 439-446): load the record (the
store's not-found error is returned as is), then tear it down. -/
def deleteSessionSvc (o : Oracle) (st : SvcState) (sessionId : String) :
    Option SvcErr × SvcState :=
  match getSessionRow st.db sessionId with
  | none => (some SvcErr.notFound, st)
  | some sess => cleanupSession o st sess

/-- `Service.DeleteAllSessions` (service.go 504-517): list all rows,
tear each down in order; per-record failures are only logged and the
call returns `nil` whenever the listing succeeded. -/
def deleteAllSessionsSvc (o : Oracle) (st : SvcState) : Option SvcErr × SvcState :=
  if o.storeListFault then (some SvcErr.listFailed, st)
  else
    ((none : Option SvcErr),
      (listAllRows st.db).foldl (fun acc sess => (cleanupSession o acc sess).2) st)

/-! ## HTTP list endpoint (`Server.listSessions`, server.go 136-151) -/

inductive JsonBody
  | nullBody
  | sessionArray (rows : List Session)
  | errorObj (msg : String)
deriving DecidableEq, Repr

/-- One `append` of the row loop of `ListAllSessions` (part_008
191-222): appending to a nil Go slice allocates it. -/
def scanRowsStep (acc : Option (List Session)) (r : Session) : Option (List Session) :=
  match acc with
  | none => some [r]
  | some l => some (l ++ [r])

/-- The row loop of `ListAllSessions` (part_008 191-222): the Go slice
`var sessions []*Session` stays `nil` when no row is appended. -/
def scanRows (rows : List Session) : Option (List Session) :=
  rows.foldl scanRowsStep none

/-- `json.Marshal` of a `[]*store.Session`: a nil slice marshals to
`null`, any non-nil slice to an array. -/
def marshalSessions : Option (List Session) → JsonBody
  | none => JsonBody.nullBody
  | some l => JsonBody.sessionArray l

/-- `Server.listSessions` (server.go 136-151): 500 on a listing error;
otherwise replace a nil slice by the empty slice and answer 200. -/
def listSessionsHandler (o : Oracle) (st : SvcState) : Int × JsonBody :=
  if o.storeListFault then (500, JsonBody.errorObj "list failed")
  else
    let rows := scanRows (listAllRows st.db)
    let rows2 :=
      match rows with
      | none => some ([] : List Session)
      | some l => some l
    (200, marshalSessions rows2)

/-! ## Boot sequence (`main`, cmd/orchestrator/main.go 29-105) -/

/-- What the process finds on boot: the SQLite file contents, the
`nvidia-smi` MIG listing, the containers alive in the Docker engine. -/
structure BootInput where
  dbFile : StoreDB
  migListing : List (String × MIGProfile)
  liveContainers : Engine
deriving Repr

/-- `gpu.NewManager` via `discoverMIGInstances` (part_010 43-140): every
discovered instance starts free with no holder. -/
def discoverMIGInstances (listing : List (String × MIGProfile)) : GpuPool :=
  listing.map (fun x =>
    { uuid := x.1, profile := x.2, gpuIndex := 0, inUse := false, createdBy := "" })

/-- The boot sequence of `main` (cmd/orchestrator/main.go 29-105): open
the SQLite store (the idempotent `CREATE TABLE IF NOT EXISTS` migration
preserves existing rows), initialise the GPU manager (instances
discovered from the device listing, all free), initialise the Docker
client (a fresh `PortManager` whose used-port map is empty;
`ensureNetwork` touches no container), then start the TTL watcher and
the HTTP server.  No step reads the existing session rows or compares
them with the live containers. -/
def mainBoot (sshPortStart sshPortEnd : Int) (inp : BootInput) : SvcState :=
  { db := inp.dbFile,
    gpus := discoverMIGInstances inp.migListing,
    pm := { startPort := sshPortStart, endPort := sshPortEnd, usedPorts := [] },
    eng := inp.liveContainers }


/-! ## Spec-side definitions and concrete fixtures -/

/-- The condition of claim C10, written from the spec side: the
pre-removal inspection succeeds (no inspect fault and the container
exists) and its first `22/tcp` binding is a non-empty host-port string
parsing to a positive port; in that case this is that port. -/
def specInspectedHostPort (o : Oracle) (eng : Engine) (cid : String) : Option Int :=
  if o.inspectFault cid then none
  else
    match eng.find? (fun c => c.id == cid) with
    | none => none
    | some c =>
      match c.ports22.head? with
      | none => none
      | some hp => if hp ≠ "" ∧ 0 < parsePort hp then some (parsePort hp) else none

/-- A fault-free environment, used to evaluate the model on concrete
inputs. -/
def quietOracle : Oracle :=
  { now := 0, sessionId := "sess-1", newContainerId := "cont-1",
    rsaGen := fun _ => { privDER := "MIIEpAIB", pubB64 := "AAAAB3NzaC1yc2E" },
    buildFault := false, createFault := false, startFault := false,
    inspectFault := fun _ => false, stopFault := fun _ => false,
    removeFault := fun _ => false, storeCreateFault := false,
    storeDeleteFault := fun _ => false, storeListFault := false }

/-- The `3g.20gb` profile descriptor from the static catalog
(part_010 `getDefaultMIGProfiles`). -/
def prof3g : MIGProfile := { name := "3g.20gb", memory := "20gb", gpuSlice := 3, memSlice := 4 }

/-- One free MIG instance of the default profile. -/
def migA : MIGInstance :=
  { uuid := "MIG-A", profile := prof3g, gpuIndex := 0, inUse := false, createdBy := "" }

/-- An empty orchestrator with one free GPU slice and the default port
range. -/
def stFresh : SvcState :=
  { db := [], gpus := [migA],
    pm := { startPort := 10000, endPort := 20000, usedPorts := [] }, eng := [] }

/-- One persisted session row used by concrete scenarios. -/
def sessEx : Session :=
  { id := "s1", userId := "u1", containerId := "c1", containerIp := "10.100.0.100",
    sshPort := 10000, gpuUuid := "MIG-A", migProfile := "3g.20gb", ttlMinutes := 60,
    createdAt := 0, expiresAt := 60, metadata := [] }

/-- A state holding only the row `sessEx` (its container and holders
already gone, as after an external teardown). -/
def stOneRow : SvcState :=
  { db := [sessEx], gpus := [],
    pm := { startPort := 10000, endPort := 20000, usedPorts := [] }, eng := [] }

/-- `stOneRow` after its row is deleted. -/
def stNoRow : SvcState :=
  { db := [], gpus := [],
    pm := { startPort := 10000, endPort := 20000, usedPorts := [] }, eng := [] }

/-- A running session container holding host port 10000 on `22/tcp`. -/
def contEx : Container :=
  { id := "c1", name := "u1-container", ip := "10.100.0.100", running := true,
    ports22 := ["10000"] }

/-- Boot input with one persisted record, one discovered MIG instance
and no live container. -/
def bootEx : BootInput :=
  { dbFile := [sessEx], migListing := [("MIG-A", prof3g)], liveContainers := [] }

/-- A fault-free environment except that every store delete fails. -/
def oDeleteFail : Oracle := { quietOracle with storeDeleteFault := fun _ => true }

/-- A fault-free environment except that the store insert fails. -/
def oPersistFail : Oracle := { quietOracle with storeCreateFault := true }

/-! ## Helper lemmas -/

theorem scanPorts_eq_some {used : List Int} {cur : Int} {fuel : Nat} {p : Int}
    (h : scanPorts used cur fuel = some p) :
    cur ≤ p ∧ p < cur + fuel ∧ p ∉ used ∧ ∀ q, cur ≤ q → q < p → q ∈ used := by
  induction fuel generalizing cur with
  | zero => simp [scanPorts] at h
  | succ fuel ih =>
    rw [scanPorts] at h
    by_cases hc : cur ∈ used
    · simp only [hc, if_true] at h
      obtain ⟨h1, h2, h3, h4⟩ := ih h
      refine ⟨by omega, by omega, h3, ?_⟩
      intro q hq1 hq2
      rcases eq_or_lt_of_le hq1 with hq | hq
      · exact hq ▸ hc
      · exact h4 q (by omega) hq2
    · simp only [hc, if_false] at h
      cases h
      exact ⟨le_refl _, by omega, hc, fun q hq1 hq2 => absurd hq1 (by omega)⟩

theorem scanPorts_eq_none {used : List Int} {cur : Int} {fuel : Nat} :
    scanPorts used cur fuel = none ↔ ∀ q, cur ≤ q → q < cur + fuel → q ∈ used := by
  induction fuel generalizing cur with
  | zero => simp [scanPorts]; intro q h1 h2; omega
  | succ fuel ih =>
    rw [scanPorts]
    by_cases hc : cur ∈ used
    · simp only [hc, if_true, ih]
      constructor
      · intro h q hq1 hq2
        rcases eq_or_lt_of_le hq1 with hq | hq
        · exact hq ▸ hc
        · exact h q (by omega) (by omega)
      · intro h q hq1 hq2
        exact h q (by omega) (by omega)
    · simp only [hc, if_false]
      constructor
      · intro h; cases h
      · intro h
        exact absurd (h cur (le_refl _) (by omega)) hc

/-- C6, allocation part: a successful `AllocatePort` returns the lowest
free port of `[startPort, endPort]` and marks exactly it held. -/
theorem allocatePort_spec {pm : PortManager} {p : Int} {pm2 : PortManager}
    (h : pm.allocatePort = some (p, pm2)) :
    pm.startPort ≤ p ∧ p ≤ pm.endPort ∧ p ∉ pm.usedPorts ∧
      (∀ q, pm.startPort ≤ q → q < p → q ∈ pm.usedPorts) ∧
      pm2 = { pm with usedPorts := p :: pm.usedPorts } := by
  unfold PortManager.allocatePort at h
  cases hs : scanPorts pm.usedPorts pm.startPort (pm.endPort + 1 - pm.startPort).toNat with
  | none => rw [hs] at h; cases h
  | some q =>
    rw [hs] at h
    obtain ⟨h1, h2, h3, h4⟩ := scanPorts_eq_some hs
    cases h
    exact ⟨h1, by omega, h3, h4, rfl⟩

/-- C6, exhaustion part: `AllocatePort` fails exactly when every port in
`[startPort, endPort]` is held. -/
theorem allocatePort_exhausted (pm : PortManager) :
    pm.allocatePort = none ↔ ∀ q, pm.startPort ≤ q → q ≤ pm.endPort → q ∈ pm.usedPorts := by
  unfold PortManager.allocatePort
  cases hs : scanPorts pm.usedPorts pm.startPort (pm.endPort + 1 - pm.startPort).toNat with
  | none =>
    simp only [true_iff]
    rw [scanPorts_eq_none] at hs
    intro q hq1 hq2
    exact hs q hq1 (by omega)
  | some p =>
    obtain ⟨h1, h2, h3, _⟩ := scanPorts_eq_some hs
    constructor
    · intro h; simp at h
    · intro h
      exact absurd (h p h1 (by omega)) h3

/-- C6, release part: `ReleasePort` is idempotent. -/
theorem releasePort_idem (pm : PortManager) (p : Int) :
    (pm.releasePort p).releasePort p = pm.releasePort p := by
  unfold PortManager.releasePort
  simp [List.filter_filter]

theorem charDigit_digitChar {d : Nat} (h : d < 10) : charDigit (digitChar d) = some d := by
  interval_cases d <;> rfl

theorem digitChar_ne_minus {d : Nat} (h : d < 10) : digitChar d ≠ '-' := by
  interval_cases d <;> decide

theorem digitChar_ne_plus {d : Nat} (h : d < 10) : digitChar d ≠ '+' := by
  interval_cases d <;> decide

theorem natToChars_ne_nil (n : Nat) : natToChars n ≠ [] := by
  rw [natToChars]
  split <;> simp

theorem natToChars_head (n : Nat) :
    ∃ d cs, natToChars n = digitChar d :: cs ∧ d < 10 := by
  induction n using Nat.strong_induction_on with
  | _ n ih =>
    rw [natToChars]
    split
    · exact ⟨n, [], rfl, by omega⟩
    · obtain ⟨d, cs, hd, hlt⟩ := ih (n / 10) (Nat.div_lt_self (by omega) (by omega))
      exact ⟨d, cs ++ [digitChar (n % 10)], by rw [hd]; rfl, hlt⟩

theorem parseDigits_append (acc : Nat) (xs ys : List Char) :
    parseDigits acc (xs ++ ys) =
      (parseDigits acc xs).bind (fun m => parseDigits m ys) := by
  induction xs generalizing acc with
  | nil => rfl
  | cons c cs ih =>
    simp only [List.cons_append, parseDigits]
    cases charDigit c with
    | none => rfl
    | some d => exact ih _

theorem parseDigits_natToChars (acc n : Nat) :
    parseDigits acc (natToChars n) = some (acc * 10 ^ (natToChars n).length + n) := by
  induction n using Nat.strong_induction_on generalizing acc with
  | _ n ih =>
    rw [natToChars]
    split
    · next h =>
      simp [parseDigits, charDigit_digitChar h]
      omega
    · next h =>
      rw [parseDigits_append, ih (n / 10) (Nat.div_lt_self (by omega) (by omega)) acc]
      have hcd := charDigit_digitChar (Nat.mod_lt n (show 0 < 10 by omega))
      simp only [Option.some_bind, parseDigits, hcd, List.length_append, List.length_cons,
        List.length_nil, Nat.zero_add]
      have h10 : 10 * (n / 10) + n % 10 = n := by omega
      congr 1
      calc 10 * (acc * 10 ^ (natToChars (n / 10)).length + n / 10) + n % 10
          = acc * 10 ^ ((natToChars (n / 10)).length + 1) + (10 * (n / 10) + n % 10) := by
            rw [pow_succ]; ring
        _ = acc * 10 ^ ((natToChars (n / 10)).length + 1) + n := by rw [h10]

theorem atoi_natToChars (n : Nat) : atoi (natToChars n) = some (n : Int) := by
  obtain ⟨d, cs, hd, hlt⟩ := natToChars_head n
  rw [atoi.eq_def, hd]
  simp only [digitChar_ne_minus hlt, digitChar_ne_plus hlt, if_false]
  rw [← hd, parseDigits_natToChars]
  simp

/-- Printing a nonnegative Go `int` and parsing it back with `Atoi` is
the identity; hence `parsePort` recovers any positive printed port. -/
theorem parsePort_intToStr {i : Int} (h : 0 ≤ i) : parsePort (intToStr i) = i := by
  unfold parsePort intToStr intToChars
  rw [if_neg (not_lt.mpr h), atoi_natToChars]
  simp only []
  omega

theorem map_eq_self_of {α : Type} {l : List α} {f : α → α} (h : ∀ x ∈ l, f x = x) :
    l.map f = l := by
  induction l with
  | nil => rfl
  | cons a t ih =>
    simp only [List.map_cons, h a (List.mem_cons_self a t)]
    rw [ih (fun x hx => h x (List.mem_cons_of_mem a hx))]

theorem markInstance_uuid (u w : String) (i : MIGInstance) :
    (markInstance u w i).uuid = i.uuid := by
  unfold markInstance
  split <;> rfl

/-- Marking a free, clean instance held and then releasing it restores
the pool exactly (uuids assumed distinct, as keys of the Go map). -/
theorem releaseMIG_mark {g : GpuPool} {inst : MIGInstance} (u : String)
    (hnodup : (g.map (fun i => i.uuid)).Nodup)
    (hclean : ∀ i ∈ g, i.inUse = false → i.createdBy = "")
    (hmem : inst ∈ g) (hfree : inst.inUse = false) :
    releaseMIG (g.map (markInstance inst.uuid u)) inst.uuid u = some g := by
  have hinj := List.inj_on_of_nodup_map hnodup
  have hfind : (g.map (markInstance inst.uuid u)).find? (fun i => i.uuid == inst.uuid) =
      some (markInstance inst.uuid u inst) := by
    rw [List.find?_map]
    have hcomp : ((fun i : MIGInstance => i.uuid == inst.uuid) ∘ markInstance inst.uuid u) =
        fun i : MIGInstance => i.uuid == inst.uuid := by
      funext i
      simp [Function.comp, markInstance_uuid]
    rw [hcomp]
    cases hfind2 : g.find? (fun i => i.uuid == inst.uuid) with
    | none =>
      rw [List.find?_eq_none] at hfind2
      exact absurd (by simp : (inst.uuid == inst.uuid) = true) (by simpa using hfind2 inst hmem)
    | some x =>
      have hxeq : x = inst :=
        hinj (List.mem_of_find?_eq_some hfind2) hmem (by simpa using List.find?_some hfind2)
      rw [hxeq]
      rfl
  have hpoint : ∀ x ∈ g, freeInstance inst.uuid (markInstance inst.uuid u x) = x := by
    intro x hx
    by_cases hxu : x.uuid = inst.uuid
    · have hxeq : x = inst := hinj hx hmem hxu
      have hcb : x.createdBy = "" := hclean x hx (hxeq ▸ hfree)
      rw [hxeq] at hcb ⊢
      have hfree2 : inst.inUse = false := hfree
      unfold markInstance freeInstance
      simp only [beq_self_eq_true, if_true]
      cases inst with
      | mk uu pp gi iu cb =>
        simp only at hfree2 hcb
        simp [hfree2, hcb]
    · have hb : (x.uuid == inst.uuid) = false := by simpa using hxu
      unfold markInstance freeInstance
      simp [hb]
  have hmi : markInstance inst.uuid u inst = { inst with inUse := true, createdBy := u } := by
    unfold markInstance
    simp
  unfold releaseMIG
  rw [hfind, hmi]
  rw [show ((g.map (markInstance inst.uuid u)).map (freeInstance inst.uuid)) = g from by
    rw [List.map_map]; exact map_eq_self_of (fun x hx => hpoint x hx)]
  rfl

/-- `AllocateMIG` followed by `ReleaseMIG` of the granted instance
restores the pool exactly. -/
theorem releaseMIG_allocateMIG {g g1 : GpuPool} {p u : String} {mig : MIGInstance}
    (hnodup : (g.map (fun i => i.uuid)).Nodup)
    (hclean : ∀ i ∈ g, i.inUse = false → i.createdBy = "")
    (h : allocateMIG g p u = some (mig, g1)) :
    releaseMIG g1 mig.uuid u = some g := by
  unfold allocateMIG at h
  cases hfind : g.find? (fun i => !i.inUse && i.profile.name == p) with
  | none => rw [hfind] at h; cases h
  | some inst =>
    rw [hfind] at h
    have hpred := List.find?_some hfind
    have hmem := List.mem_of_find?_eq_some hfind
    have hfree : inst.inUse = false := by
      simp only [Bool.and_eq_true, Bool.not_eq_true'] at hpred
      exact hpred.1
    cases h
    exact releaseMIG_mark u hnodup hclean hmem hfree

/-- `AllocateMIGByUUID` followed by `ReleaseMIG` of the granted instance
restores the pool exactly. -/
theorem releaseMIG_allocateMIGByUUID {g g1 : GpuPool} {uu u : String} {mig : MIGInstance}
    (hnodup : (g.map (fun i => i.uuid)).Nodup)
    (hclean : ∀ i ∈ g, i.inUse = false → i.createdBy = "")
    (h : allocateMIGByUUID g uu u = some (mig, g1)) :
    releaseMIG g1 mig.uuid u = some g := by
  unfold allocateMIGByUUID at h
  cases hfind : g.find? (fun i => i.uuid == uu) with
  | none => rw [hfind] at h; cases h
  | some inst =>
    simp only [hfind] at h
    have hpred := List.find?_some hfind
    have hmem := List.mem_of_find?_eq_some hfind
    have huu : inst.uuid = uu := by simpa using hpred
    by_cases hinuse : inst.inUse
    · simp [hinuse] at h
    · rw [if_neg hinuse, Option.some.injEq, Prod.mk.injEq] at h
      obtain ⟨hmig, hg1⟩ := h
      have hres := releaseMIG_mark u hnodup hclean hmem
        (by simpa using hinuse)
      rw [← hmig, ← hg1]
      rw [show ({ inst with inUse := true, createdBy := u } : MIGInstance).uuid = inst.uuid
        from rfl]
      rw [← huu]
      exact hres

theorem find?_append_of_none {α : Type} {p : α → Bool} {l1 l2 : List α}
    (h : ∀ x ∈ l1, ¬ p x = true) : (l1 ++ l2).find? p = l2.find? p := by
  induction l1 with
  | nil => rfl
  | cons a t ih =>
    have ha : p a = false := by
      have := h a (List.mem_cons_self a t)
      simpa using this
    simp only [List.cons_append, List.find?, ha]
    exact ih (fun x hx => h x (List.mem_cons_of_mem a hx))

theorem getSessionRow_storeDelete (db : StoreDB) (id : String) :
    getSessionRow (storeDelete db id) id = none := by
  unfold getSessionRow storeDelete
  rw [List.find?_eq_none]
  intro r hr
  have hkeep := (List.mem_filter.mp hr).2
  simp only [bne_iff_ne, ne_eq] at hkeep
  simp [hkeep]

/-! ## Claim theorems -/

/-- C6: for every state of the port pool, a successful `AllocatePort`
returns the lowest port of `[startPort, endPort]` not currently held and
marks exactly it held; allocation fails exactly when every port of the
range is held; and `ReleasePort` is idempotent. -/
theorem c6_port_pool_lowest_free_exhaustion_release_idempotent (pm : PortManager) :
    (∀ p pm2, pm.allocatePort = some (p, pm2) →
      pm.startPort ≤ p ∧ p ≤ pm.endPort ∧ p ∉ pm.usedPorts ∧
        (∀ q, pm.startPort ≤ q → q < p → q ∈ pm.usedPorts) ∧
        pm2.usedPorts = p :: pm.usedPorts) ∧
    (pm.allocatePort = none ↔ ∀ q, pm.startPort ≤ q → q ≤ pm.endPort → q ∈ pm.usedPorts) ∧
    (∀ p, (pm.releasePort p).releasePort p = pm.releasePort p) :=
  ⟨fun _ _ h =>
    ⟨(allocatePort_spec h).1, (allocatePort_spec h).2.1, (allocatePort_spec h).2.2.1,
      (allocatePort_spec h).2.2.2.1, by rw [(allocatePort_spec h).2.2.2.2]⟩,
    allocatePort_exhausted pm, releasePort_idem pm⟩

theorem c6_witness :
    (10000 : Int) ≤ 10001 ∧ (10001 : Int) ≤ 20000 ∧
      (10001 : Int) ∉ ([10000] : List Int) ∧
      (∀ q : Int, 10000 ≤ q → q < 10001 → q ∈ ([10000] : List Int)) ∧
      ([10001, 10000] : List Int) = 10001 :: [10000] :=
  (c6_port_pool_lowest_free_exhaustion_release_idempotent ⟨10000, 20000, [10000]⟩).1
    10001 ⟨10000, 20000, [10001, 10000]⟩ rfl

/-- C4: a `CreateSession` request for a user who already has a record
fails with the duplicate-user error and has no side effects at all: the
returned state is the input state (no GPU, port or IP held, no container
created), and exactly one record for that user persists when exactly one
existed. -/
theorem c4_duplicate_user_fails_without_side_effects
    (o : Oracle) (wr : String) (st : SvcState) (req : CreateRequest) (r : Session)
    (h : getSessionByUserRow st.db req.userId = some r) :
    createSessionSvc o wr st req = (Except.error SvcErr.duplicateUser, st) ∧
    (st.db.countP (fun s => s.userId == req.userId) = 1 →
      ((createSessionSvc o wr st req).2).db.countP (fun s => s.userId == req.userId) = 1) := by
  have hmain : createSessionSvc o wr st req = (Except.error SvcErr.duplicateUser, st) := by
    unfold createSessionSvc
    simp [h]
  exact ⟨hmain, fun hc => by rw [hmain]; exact hc⟩

theorem c4_witness :
    createSessionSvc quietOracle "/srv/workspaces" stOneRow
        { userId := "u1", ttlMinutes := 5, migProfile := "", migInstanceUUID := "",
          image := "" } =
      (Except.error SvcErr.duplicateUser, stOneRow) :=
  (c4_duplicate_user_fails_without_side_effects quietOracle "/srv/workspaces" stOneRow
    { userId := "u1", ttlMinutes := 5, migProfile := "", migInstanceUUID := "", image := "" }
    sessEx rfl).1

/-- C5: `DeleteSession` on an id with no record returns the not-found
error and releases nothing (the state is returned untouched); in
particular after a successful `DeleteSession(id)` a second
`DeleteSession(id)` returns not-found with no additional releases. -/
theorem c5_delete_missing_id_not_found_and_idempotent
    (o o2 : Oracle) (st : SvcState) (sid : String) :
    (getSessionRow st.db sid = none →
      deleteSessionSvc o st sid = (some SvcErr.notFound, st)) ∧
    (∀ st1, deleteSessionSvc o st sid = (none, st1) →
      deleteSessionSvc o2 st1 sid = (some SvcErr.notFound, st1)) := by
  constructor
  · intro h
    unfold deleteSessionSvc
    simp [h]
  · intro st1 h
    unfold deleteSessionSvc at h
    cases hg : getSessionRow st.db sid with
    | none => simp [hg] at h
    | some sess =>
      simp only [hg] at h
      have hsid : sess.id = sid := by simpa using List.find?_some hg
      unfold cleanupSession at h
      by_cases hdf : o.storeDeleteFault sess.id
      · simp [hdf] at h
      · rw [if_neg hdf] at h
        injection h with h1 h2
        subst h2
        have hnone : getSessionRow (storeDelete st.db sess.id) sid = none := by
          rw [← hsid]
          exact getSessionRow_storeDelete st.db sess.id
        unfold deleteSessionSvc
        simp [hnone]

theorem c5_witness :
    deleteSessionSvc quietOracle stNoRow "s1" = (some SvcErr.notFound, stNoRow) :=
  (c5_delete_missing_id_not_found_and_idempotent quietOracle quietOracle stOneRow "s1").2
    stNoRow rfl

theorem scanRows_go (l acc : List Session) :
    l.foldl scanRowsStep (some acc) = some (acc ++ l) := by
  induction l generalizing acc with
  | nil => simp
  | cons r t ih =>
    simp only [List.foldl_cons, scanRowsStep]
    rw [ih]
    simp

theorem scanRows_eq (rows : List Session) :
    scanRows rows = match rows with | [] => none | _ => some rows := by
  cases rows with
  | nil => rfl
  | cons r t =>
    unfold scanRows
    simp only [List.foldl_cons]
    rw [show scanRowsStep none r = some [r] from rfl, scanRows_go]
    simp

theorem fieldsAux_nonspace (w : List Char) (hw : ∀ c ∈ w, isSpaceChar c = false)
    (cur rest : List Char) :
    fieldsAux cur (w ++ rest) = fieldsAux (w.reverse ++ cur) rest := by
  induction w generalizing cur with
  | nil => rfl
  | cons c t ih =>
    have hc : isSpaceChar c = false := hw c (List.mem_cons_self c t)
    show (if isSpaceChar c = true then _ else fieldsAux (c :: cur) (t ++ rest)) = _
    rw [if_neg (by simp [hc])]
    rw [ih (fun x hx => hw x (List.mem_cons_of_mem c hx)) (c :: cur)]
    simp [List.append_assoc]

theorem fieldsAux_space (cur : List Char) (c : Char) (rest : List Char)
    (hc : isSpaceChar c = true) (hcur : cur ≠ []) :
    fieldsAux cur (c :: rest) = cur.reverse :: fieldsAux [] rest := by
  have hie : cur.isEmpty = false := by
    cases cur with
    | nil => exact absurd rfl hcur
    | cons a t => rfl
  show (if isSpaceChar c = true then
      if cur.isEmpty = true then fieldsAux [] rest else cur.reverse :: fieldsAux [] rest
    else fieldsAux (c :: cur) rest) = cur.reverse :: fieldsAux [] rest
  rw [if_pos hc, if_neg (by simp [hie])]

/-- C8 counterexample: for userId `u1` and concrete key material, the
minted authorized-keys line is `"ssh-rsa <base64>\n"` — its comment
field is absent (`none`), not `some "u1@sandbox"` as the claim states. -/
theorem c8_counterexample :
    (generateSSHKeyPair quietOracle.rsaGen "u1").1 = "ssh-rsa AAAAB3NzaC1yc2E\n" ∧
    authorizedKeyComment (generateSSHKeyPair quietOracle.rsaGen "u1").1 = none ∧
    ¬ authorizedKeyComment (generateSSHKeyPair quietOracle.rsaGen "u1").1 =
        some "u1@sandbox" := by
  refine ⟨rfl, rfl, ?_⟩
  intro hcontra
  rw [show authorizedKeyComment (generateSSHKeyPair quietOracle.rsaGen "u1").1 = none
    from rfl] at hcontra
  cases hcontra

/-- C8 amended: for every userId, the minter generates a fresh RSA key
of 2048 bits, serializes the private half as the PEM encoding of a
`RSA PRIVATE KEY` block, and serializes the public half as a single-line
OpenSSH authorized-keys entry of exactly two fields — the key type
`ssh-rsa` and the base64 — carrying no comment at all (the
`<userId>@sandbox` comment exists only on the separate ed25519 key that
`start.sh` generates inside the container). -/
theorem c8_minter_rsa2048_pem_and_commentless_pubkey
    (rsaGen : Nat → RSAKeyMaterial) (userID : String)
    (hb64ne : (rsaGen 2048).pubB64.data ≠ [])
    (hb64ws : ∀ c ∈ (rsaGen 2048).pubB64.data, isSpaceChar c = false) :
    (generateSSHKeyPair rsaGen userID).1 = "ssh-rsa " ++ (rsaGen 2048).pubB64 ++ "\n" ∧
    (generateSSHKeyPair rsaGen userID).2 =
      pemEncode "RSA PRIVATE KEY" (rsaGen 2048).privDER ∧
    authorizedKeyFields (generateSSHKeyPair rsaGen userID).1 =
      ["ssh-rsa", (rsaGen 2048).pubB64] ∧
    authorizedKeyComment (generateSSHKeyPair rsaGen userID).1 = none := by
  have h1 : (generateSSHKeyPair rsaGen userID).1 =
      "ssh-rsa " ++ (rsaGen 2048).pubB64 ++ "\n" := by
    show ("ssh-rsa" ++ " ") ++ (rsaGen 2048).pubB64 ++ "\n" =
      "ssh-rsa " ++ (rsaGen 2048).pubB64 ++ "\n"
    rw [show ("ssh-rsa" ++ " " : String) = "ssh-rsa " from rfl]
  have hfields : authorizedKeyFields (generateSSHKeyPair rsaGen userID).1 =
      ["ssh-rsa", (rsaGen 2048).pubB64] := by
    unfold authorizedKeyFields
    show (fieldsAux []
      ((("ssh-rsa".data ++ " ".data) ++ (rsaGen 2048).pubB64.data) ++ "\n".data)).map
        (fun w => String.mk w) = _
    rw [List.append_assoc]
    rw [show ("ssh-rsa".data ++ " ".data) = "ssh-rsa".data ++ [' '] from rfl]
    rw [List.append_assoc]
    rw [fieldsAux_nonspace "ssh-rsa".data (by decide) []
      ([' '] ++ ((rsaGen 2048).pubB64.data ++ "\n".data))]
    show (fieldsAux ['a', 's', 'r', '-', 'h', 's', 's']
      (' ' :: ((rsaGen 2048).pubB64.data ++ ['\n']))).map (fun w => String.mk w) = _
    rw [fieldsAux_space ['a', 's', 'r', '-', 'h', 's', 's'] ' '
      ((rsaGen 2048).pubB64.data ++ ['\n']) rfl (by simp)]
    rw [fieldsAux_nonspace (rsaGen 2048).pubB64.data hb64ws [] ['\n']]
    rw [fieldsAux_space ((rsaGen 2048).pubB64.data.reverse ++ []) '\n' [] rfl
      (by simp [hb64ne])]
    simp
    rfl
  refine ⟨h1, rfl, hfields, ?_⟩
  unfold authorizedKeyComment
  rw [hfields]
  rfl

theorem c8_witness :
    authorizedKeyFields (generateSSHKeyPair quietOracle.rsaGen "u1").1 =
      ["ssh-rsa", "AAAAB3NzaC1yc2E"] ∧
    authorizedKeyComment (generateSSHKeyPair quietOracle.rsaGen "u1").1 = none := by
  have h := c8_minter_rsa2048_pem_and_commentless_pubkey quietOracle.rsaGen "u1"
    (by decide) (by decide)
  exact ⟨h.2.2.1, h.2.2.2⟩

/-- C10: `RemoveContainer` force-removes the container from the engine
(shown here when the remove call itself succeeds) whether or not the
inspection worked, and it returns a host port to the pool exactly when
the pre-removal inspection succeeds and its first `22/tcp` binding
parses to a positive port — in particular, when the inspection fails the
port pool is untouched. -/
theorem c10_remove_releases_port_iff_inspection_yields_port
    (o : Oracle) (pm : PortManager) (eng : Engine) (cid : String)
    (hrm : o.removeFault cid = false) :
    (removeContainer o pm eng cid).2.2 = eng.filter (fun c => c.id != cid) ∧
    (removeContainer o pm eng cid).2.1 =
      (match specInspectedHostPort o eng cid with
       | some p => pm.releasePort p
       | none => pm) ∧
    (o.inspectFault cid = true → (removeContainer o pm eng cid).2.1 = pm) := by
  have heng : (removeContainer o pm eng cid).2.2 = eng.filter (fun c => c.id != cid) := by
    unfold removeContainer
    simp [hrm]
  have hpm : (removeContainer o pm eng cid).2.1 =
      (match specInspectedHostPort o eng cid with
       | some p => pm.releasePort p
       | none => pm) := by
    unfold removeContainer specInspectedHostPort
    by_cases hins : o.inspectFault cid = true
    · simp [hins, hrm]
    · have hins2 : o.inspectFault cid = false := by simpa using hins
      simp only [hins2, Bool.false_eq_true, if_false, hrm]
      cases hfind : eng.find? (fun c => c.id == cid) with
      | none => simp [hfind]
      | some c =>
        simp only [hfind]
        cases hhd : c.ports22.head? with
        | none => simp [hhd]
        | some hp =>
          simp only [hhd]
          by_cases hc1 : hp = ""
          · simp [hc1]
          · by_cases hc2 : 0 < parsePort hp
            · simp [hc1, hc2]
            · simp [hc1, hc2]
  refine ⟨heng, hpm, ?_⟩
  intro hc
  rw [hpm]
  unfold specInspectedHostPort
  simp [hc]

theorem c10_witness :
    (removeContainer quietOracle ⟨10000, 20000, [10000]⟩ [contEx] "c1").2.1 =
      (match specInspectedHostPort quietOracle [contEx] "c1" with
       | some p => PortManager.releasePort ⟨10000, 20000, [10000]⟩ p
       | none => ⟨10000, 20000, [10000]⟩) :=
  (c10_remove_releases_port_iff_inspection_yields_port quietOracle
    ⟨10000, 20000, [10000]⟩ [contEx] "c1" rfl).2.1

/-- C2 counterexample: boot with one persisted record (host port 10000,
GPU `MIG-A`) keeps the record but leaves the port pool's held set empty
and the discovered GPU instance free — the pools' held state is not
rebuilt from the records before serving traffic. -/
theorem c2_counterexample :
    (mainBoot 10000 20000 bootEx).db = [sessEx] ∧
    sessEx.sshPort = 10000 ∧
    sessEx.gpuUuid = "MIG-A" ∧
    (mainBoot 10000 20000 bootEx).pm.usedPorts = [] ∧
    (mainBoot 10000 20000 bootEx).gpus =
      [{ uuid := "MIG-A", profile := prof3g, gpuIndex := 0, inUse := false, createdBy := "" }] :=
  ⟨rfl, rfl, rfl, rfl, rfl⟩

/-- C2 amended: the boot sequence initialises every component without
reading the existing records or the live containers: the rows are
preserved as they are, every discovered MIG instance starts free with no
holder, the port pool starts with an empty held set (so no record's port
is held), and live containers are left untouched.  No reconciliation
happens before the HTTP server starts. -/
theorem c2_boot_performs_no_reconciliation (sp ep : Int) (inp : BootInput) :
    (mainBoot sp ep inp).db = inp.dbFile ∧
    (∀ i ∈ (mainBoot sp ep inp).gpus, i.inUse = false ∧ i.createdBy = "") ∧
    (mainBoot sp ep inp).pm.usedPorts = [] ∧
    (mainBoot sp ep inp).eng = inp.liveContainers ∧
    (∀ r ∈ inp.dbFile, r.sshPort ∉ (mainBoot sp ep inp).pm.usedPorts) := by
  refine ⟨rfl, ?_, rfl, rfl, ?_⟩
  · intro i hi
    unfold mainBoot discoverMIGInstances at hi
    simp only [List.mem_map] at hi
    obtain ⟨x, _, hfx⟩ := hi
    rw [← hfx]
    exact ⟨rfl, rfl⟩
  · intro r _
    simp [mainBoot]

theorem c2_witness :
    (migA.inUse = false ∧ migA.createdBy = "") ∧
    sessEx.sshPort ∉ (mainBoot 10000 20000 bootEx).pm.usedPorts := by
  have h := c2_boot_performs_no_reconciliation 10000 20000 bootEx
  exact ⟨h.2.1 migA (by decide), h.2.2.2.2 sessEx (by decide)⟩

/-- C3 counterexample: with one record whose store delete fails, the
per-record teardown fails (`cleanupSession` returns an error and the
record survives) yet `DeleteAllSessions` still returns success. -/
theorem c3_counterexample :
    (deleteAllSessionsSvc oDeleteFail stOneRow).1 = none ∧
    (cleanupSession oDeleteFail stOneRow sessEx).1 = some SvcErr.storeDeleteFailed ∧
    (deleteAllSessionsSvc oDeleteFail stOneRow).2.db = [sessEx] :=
  ⟨rfl, rfl, rfl⟩

/-- C3 amended: `DeleteAllSessions` enumerates all records and applies
the per-session teardown to each in listing order, but it aggregates no
per-record errors: it returns success whenever the listing itself
succeeded, even when some per-record teardowns failed (those are only
logged). -/
theorem c3_delete_all_swallows_teardown_failures (o : Oracle) (st : SvcState)
    (h : o.storeListFault = false) :
    deleteAllSessionsSvc o st =
      (none, (listAllRows st.db).foldl (fun acc sess => (cleanupSession o acc sess).2) st) := by
  unfold deleteAllSessionsSvc
  simp [h]

theorem c3_witness :
    deleteAllSessionsSvc oDeleteFail stOneRow =
      (none, (listAllRows stOneRow.db).foldl
        (fun acc sess => (cleanupSession oDeleteFail acc sess).2) stOneRow) :=
  c3_delete_all_swallows_teardown_failures oDeleteFail stOneRow rfl

/-- C9: with a working store, `GET /sessions` answers 200 with a JSON
array — never null — whose rows are exactly the stored records ordered
newest-first; with no stored sessions it is the literal empty array. -/
theorem c9_list_sessions_200_array_newest_first_never_null (o : Oracle) (st : SvcState)
    (h : o.storeListFault = false) :
    (listSessionsHandler o st).1 = 200 ∧
    (listSessionsHandler o st).2 ≠ JsonBody.nullBody ∧
    ∃ rows, (listSessionsHandler o st).2 = JsonBody.sessionArray rows ∧
      rows.Perm st.db ∧ List.Sorted newestFirst rows ∧ (st.db = [] → rows = []) := by
  unfold listSessionsHandler
  simp only [h, Bool.false_eq_true, if_false]
  have hperm := List.perm_insertionSort newestFirst st.db
  refine ⟨trivial, ?_, ?_⟩
  · cases hs : scanRows (listAllRows st.db) <;> simp [marshalSessions]
  · cases hs : scanRows (listAllRows st.db) with
    | none =>
      have hnil : listAllRows st.db = [] := by
        rw [scanRows_eq] at hs
        cases hl : listAllRows st.db with
        | nil => rfl
        | cons a t => rw [hl] at hs; cases hs
      have hdb : st.db = [] := by
        have h2 := hperm
        rw [show List.insertionSort newestFirst st.db = listAllRows st.db from rfl, hnil] at h2
        exact (h2.symm.eq_nil)
      exact ⟨[], by simp [marshalSessions], by rw [hdb], by simp, fun _ => rfl⟩
    | some rows =>
      have hrows : rows = listAllRows st.db := by
        rw [scanRows_eq] at hs
        cases hl : listAllRows st.db with
        | nil => rw [hl] at hs; cases hs
        | cons a t => rw [hl] at hs; cases hs; rfl
      refine ⟨rows, by simp [marshalSessions], ?_, ?_, ?_⟩
      · rw [hrows]
        exact hperm
      · rw [hrows]
        exact List.sorted_insertionSort newestFirst st.db
      · intro hdb
        rw [hrows, show listAllRows st.db = List.insertionSort newestFirst st.db from rfl, hdb]
        rfl

/-- C7: two independent defaults of `CreateSession`, each quantified on
its own over every successful request.  (i) If `ttlMinutes` is zero or
negative, the session is created with the default TTL of 60 minutes and
`expiresAt = createdAt + 60`, both in the response and in the persisted
record — whatever the profile fields contain.  (ii) If both
`migProfile` and `migInstanceUUID` are absent, the GPU is allocated for
the default profile `3g.20gb` and the record says so — whatever the
TTL. -/
theorem c7_defaults_ttl_60_and_profile_3g20gb
    (o : Oracle) (wr : String) (st : SvcState) (req : CreateRequest)
    (resp : CreateResponse) (st2 : SvcState)
    (h : createSessionSvc o wr st req = (Except.ok resp, st2)) :
    (req.ttlMinutes ≤ 0 →
      resp.expiresAt = resp.createdAt + 60 ∧
      ∃ sess ∈ st2.db, sess.userId = req.userId ∧ sess.ttlMinutes = 60 ∧
        sess.expiresAt = sess.createdAt + 60) ∧
    (req.migProfile = "" → req.migInstanceUUID = "" →
      ∃ sess ∈ st2.db, sess.userId = req.userId ∧ sess.migProfile = "3g.20gb") := by
  unfold createSessionSvc at h
  cases hdup : getSessionByUserRow st.db req.userId with
  | some r => simp [hdup] at h
  | none =>
    simp only [hdup] at h
    set alloc := (if req.migInstanceUUID != ""
      then allocateMIGByUUID st.gpus req.migInstanceUUID req.userId
      else allocateMIG st.gpus
        (if req.migProfile == "" && req.migInstanceUUID == "" then "3g.20gb"
         else req.migProfile) req.userId) with hallocdef
    cases hA : alloc with
    | none => simp only [hA] at h; simp at h
    | some p =>
      obtain ⟨mig, gpus1⟩ := p
      simp only [hA] at h
      cases hcc : createContainer o st.pm st.eng
          { userID := req.userId, gpuUUID := mig.uuid,
            workspaceDir := wr ++ "/" ++ req.userId, sshPassword := "",
            image := req.image } with
      | mk oinfo rest =>
        obtain ⟨pm1, eng1⟩ := rest
        simp only [hcc] at h
        cases oinfo with
        | none => simp at h
        | some info =>
          split at h
          · simp at h
          · rename_i info1 pm1x eng1x heq
            injection heq with h1 h23
            injection h23 with h2 h3
            injection h1 with h1
            subst h1
            subst h2
            subst h3
            split at h
            · simp at h
            · rename_i db1 heq2
              injection h with hfst hsnd
              injection hfst with hresp
              set sess0 : Session :=
                { id := o.sessionId, userId := req.userId, containerId := info.id,
                  containerIp := info.ip, sshPort := info.sshPort, gpuUuid := mig.uuid,
                  migProfile := mig.profile.name,
                  ttlMinutes := if req.ttlMinutes ≤ 0 then 60 else req.ttlMinutes,
                  createdAt := o.now,
                  expiresAt := o.now + (if req.ttlMinutes ≤ 0 then 60 else req.ttlMinutes),
                  metadata := [("image", info.image),
                    ("workspace", wr ++ "/" ++ req.userId), ("ssh_password", ""),
                    ("ssh_port", intToStr info.sshPort)] } with hsess0
              have hdb1 : db1 = st.db ++ [sess0] := by
                by_cases hscf : o.storeCreateFault = true
                · simp [hscf] at heq2
                · rw [if_neg hscf] at heq2
                  unfold storeCreate at heq2
                  split at heq2
                  · cases heq2
                  · injection heq2 with heq2
                    exact heq2.symm
              have hmem : sess0 ∈ st2.db := by
                rw [← hsnd]
                show sess0 ∈ db1
                rw [hdb1]
                exact List.mem_append_right _ (List.mem_singleton_self _)
              refine ⟨fun httl => ⟨?_, sess0, hmem, rfl, ?_, ?_⟩,
                fun hprof huuid => ⟨sess0, hmem, rfl, ?_⟩⟩
              · rw [← hresp]
                show o.now + (if req.ttlMinutes ≤ 0 then 60 else req.ttlMinutes) = o.now + 60
                rw [if_pos httl]
              · show (if req.ttlMinutes ≤ 0 then 60 else req.ttlMinutes) = 60
                rw [if_pos httl]
              · show o.now + (if req.ttlMinutes ≤ 0 then 60 else req.ttlMinutes) = o.now + 60
                rw [if_pos httl]
              · show mig.profile.name = "3g.20gb"
                rw [hallocdef] at hA
                simp only [hprof, huuid, bne_self_eq_false, Bool.false_eq_true, if_false,
                  beq_self_eq_true, Bool.and_self, if_true] at hA
                unfold allocateMIG at hA
                cases hfind : st.gpus.find?
                    (fun i => !i.inUse && i.profile.name == "3g.20gb") with
                | none => rw [hfind] at hA; cases hA
                | some inst =>
                  rw [hfind] at hA
                  have hpred := List.find?_some hfind
                  simp only [Bool.and_eq_true, beq_iff_eq] at hpred
                  cases hA
                  exact hpred.2

theorem c7_witness :
    ∃ resp st2,
      createSessionSvc quietOracle "/srv/workspaces" stFresh
          { userId := "u1", ttlMinutes := 0, migProfile := "", migInstanceUUID := "",
            image := "" } = (Except.ok resp, st2) ∧
      (resp.expiresAt = resp.createdAt + 60 ∧
        ∃ sess ∈ st2.db, sess.userId = "u1" ∧ sess.ttlMinutes = 60 ∧
          sess.expiresAt = sess.createdAt + 60) ∧
      (∃ sess ∈ st2.db, sess.userId = "u1" ∧ sess.migProfile = "3g.20gb") := by
  have h := c7_defaults_ttl_60_and_profile_3g20gb quietOracle "/srv/workspaces" stFresh
    { userId := "u1", ttlMinutes := 0, migProfile := "", migInstanceUUID := "", image := "" }
    ((createSessionSvc quietOracle "/srv/workspaces" stFresh
        { userId := "u1", ttlMinutes := 0, migProfile := "", migInstanceUUID := "",
          image := "" }).1.toOption.get (by rfl))
    ((createSessionSvc quietOracle "/srv/workspaces" stFresh
        { userId := "u1", ttlMinutes := 0, migProfile := "", migInstanceUUID := "",
          image := "" }).2)
    (by rfl)
  exact ⟨_, _, by rfl, h.1 (by exact le_refl 0), h.2 rfl rfl⟩

theorem c9_witness :
    (listSessionsHandler quietOracle stNoRow).1 = 200 ∧
    (listSessionsHandler quietOracle stNoRow).2 ≠ JsonBody.nullBody := by
  have h := c9_list_sessions_200_array_newest_first_never_null quietOracle stNoRow rfl
  exact ⟨h.1, h.2.1⟩

theorem intToStr_ne_empty {i : Int} (h : 0 ≤ i) : intToStr i ≠ "" := by
  unfold intToStr intToChars
  rw [if_neg (not_lt.mpr h)]
  intro heq
  have hd := congrArg String.data heq
  exact natToChars_ne_nil i.toNat hd

/-- C1: when the final persist step of `CreateSession` fails after the
container has been created and started, the rollback force-removes the
container (which also frees its bridge IP, since the IP pool is derived
from live containers, and returns its host port through the
inspection), releases the GPU slice, and the call returns the persist
error — the final state equals the initial state, so no resource
allocated for the request remains held.  Hypotheses: the rollback's
inspect and remove calls succeed, existing container ids differ from the
new one, the pool uuids are distinct, free instances carry no holder,
and the port range is positive. -/
theorem c1_persist_failure_rolls_back_all_resources
    (o : Oracle) (wr : String) (st : SvcState) (req : CreateRequest) (st2 : SvcState)
    (hfresh : ∀ c ∈ st.eng, c.id ≠ o.newContainerId)
    (hnodup : (st.gpus.map (fun i => i.uuid)).Nodup)
    (hclean : ∀ i ∈ st.gpus, i.inUse = false → i.createdBy = "")
    (hins : o.inspectFault o.newContainerId = false)
    (hrm : o.removeFault o.newContainerId = false)
    (hpos : 0 < st.pm.startPort)
    (h : createSessionSvc o wr st req = (Except.error SvcErr.persistFailed, st2)) :
    st2 = st := by
  unfold createSessionSvc at h
  cases hdup : getSessionByUserRow st.db req.userId with
  | some r => simp [hdup] at h
  | none =>
    simp only [hdup] at h
    set alloc := (if req.migInstanceUUID != ""
      then allocateMIGByUUID st.gpus req.migInstanceUUID req.userId
      else allocateMIG st.gpus
        (if req.migProfile == "" && req.migInstanceUUID == "" then "3g.20gb"
         else req.migProfile) req.userId) with hallocdef
    cases hA : alloc with
    | none => simp only [hA] at h; simp at h
    | some p =>
      obtain ⟨mig, gpus1⟩ := p
      simp only [hA] at h
      have hrel : releaseMIG gpus1 mig.uuid req.userId = some st.gpus := by
        rw [hallocdef] at hA
        split at hA
        · exact releaseMIG_allocateMIGByUUID hnodup hclean hA
        · exact releaseMIG_allocateMIG hnodup hclean hA
      cases hcc : createContainer o st.pm st.eng
          { userID := req.userId, gpuUUID := mig.uuid,
            workspaceDir := wr ++ "/" ++ req.userId, sshPassword := "",
            image := req.image } with
      | mk oinfo rest =>
        obtain ⟨pm1, eng1⟩ := rest
        simp only [hcc] at h
        cases oinfo with
        | none => simp at h
        | some info =>
          unfold createContainer at hcc
          by_cases hbf : o.buildFault = true
          · simp [hbf] at hcc
          · have hbf2 : o.buildFault = false := by simpa using hbf
            simp only [hbf2, Bool.false_eq_true, if_false] at hcc
            cases hip : findAvailableIP st.eng with
            | none => simp [hip] at hcc
            | some ip =>
              simp only [hip] at hcc
              cases hap : st.pm.allocatePort with
              | none => simp [hap] at hcc
              | some q =>
                obtain ⟨sshPort, pmA⟩ := q
                simp only [hap] at hcc
                by_cases hcf : o.createFault = true
                · simp [hcf] at hcc
                · have hcf2 : o.createFault = false := by simpa using hcf
                  simp only [hcf2, Bool.false_eq_true, if_false] at hcc
                  by_cases hsf : o.startFault = true
                  · simp [hsf] at hcc
                  · have hsf2 : o.startFault = false := by simpa using hsf
                    simp only [hsf2, Bool.false_eq_true, if_false,
                      Prod.mk.injEq, Option.some.injEq] at hcc
                    obtain ⟨hinfo, hpm1, heng1⟩ := hcc
                    subst hinfo
                    subst hpm1
                    subst heng1
                    have hspec := allocatePort_spec hap
                    have hp0 : (0 : Int) < sshPort := lt_of_lt_of_le hpos hspec.1
                    have hfind2 : (st.eng ++
                        [({ id := o.newContainerId, name := req.userId ++ "-container",
                            ip := ip, running := true,
                            ports22 := [intToStr sshPort] } : Container)]).find?
                          (fun c => c.id == o.newContainerId) =
                        some { id := o.newContainerId, name := req.userId ++ "-container",
                               ip := ip, running := true,
                               ports22 := [intToStr sshPort] } := by
                      rw [find?_append_of_none (fun c hc => by simpa using hfresh c hc)]
                      exact List.find?_cons_of_pos _ (by simp)
                    have hbne : (intToStr sshPort != "") = true := by
                      simpa [bne_iff_ne] using intToStr_ne_empty (le_of_lt hp0)
                    have hpmrel : pmA.releasePort sshPort = st.pm := by
                      rw [hspec.2.2.2.2]
                      unfold PortManager.releasePort
                      have hflt : st.pm.usedPorts.filter (fun q => q != sshPort) =
                          st.pm.usedPorts :=
                        List.filter_eq_self.mpr (fun q hq => by
                          simpa [bne_iff_ne] using ne_of_mem_of_not_mem hq hspec.2.2.1)
                      simp [hflt]
                    have hfilteng : st.eng.filter
                        (fun c => c.id != o.newContainerId) = st.eng :=
                      List.filter_eq_self.mpr (fun c hc => by
                        simpa [bne_iff_ne] using hfresh c hc)
                    have hremove : removeContainer o pmA
                        (st.eng ++
                          [({ id := o.newContainerId, name := req.userId ++ "-container",
                              ip := ip, running := true,
                              ports22 := [intToStr sshPort] } : Container)])
                        o.newContainerId = (true, st.pm, st.eng) := by
                      unfold removeContainer
                      rw [hins]
                      simp only [Bool.false_eq_true, if_false]
                      rw [hfind2]
                      simp only [List.head?_cons]
                      rw [parsePort_intToStr (le_of_lt hp0)]
                      rw [hbne, decide_eq_true hp0]
                      simp only [Bool.and_self, if_true]
                      rw [hrm]
                      simp only [Bool.false_eq_true, if_false]
                      rw [hpmrel, List.filter_append, hfilteng]
                      simp
                    split at h
                    · -- the outer match cannot take the (none, _, _) arm here
                      simp at h
                    · rename_i info1 pm1x eng1x heq
                      injection heq with h1 h23
                      injection h23 with h2 h3
                      injection h1 with h1
                      subst h1
                      subst h2
                      subst h3
                      split at h
                      · -- the insert failed: the rollback branch
                        injection h with hfst hsnd
                        rw [← hsnd]
                        rw [hrel]
                        simp only [Option.getD_some]
                        rw [hremove]
                      · -- the insert succeeded: the result would be ok, not an error
                        simp at h

theorem c1_witness :
    (createSessionSvc oPersistFail "/srv/workspaces" stFresh
        { userId := "u1", ttlMinutes := 5, migProfile := "3g.20gb", migInstanceUUID := "",
          image := "" }).2 = stFresh :=
  c1_persist_failure_rolls_back_all_resources oPersistFail "/srv/workspaces" stFresh
    { userId := "u1", ttlMinutes := 5, migProfile := "3g.20gb", migInstanceUUID := "",
      image := "" }
    ((createSessionSvc oPersistFail "/srv/workspaces" stFresh
        { userId := "u1", ttlMinutes := 5, migProfile := "3g.20gb", migInstanceUUID := "",
          image := "" }).2)
    (fun c hc => by simp [stFresh] at hc)
    (by decide) (by decide) rfl rfl (by decide) (by rfl)

end Sandman
